import Mathlib

/-!
Shallow embedding of `src/main.py`, a Flask webhook receiver
("Kone Webhook Receiver").  The module-level mutable state
(`latest_webhook_data`, `event_history`, and the best-effort
`webhook_events.log` file) is modelled as an explicit `ServerState`
record; each HTTP handler becomes a Lean function from the state (and
the request's environment inputs: the parsed body, the clock reading,
whether the log-file write succeeds) to a new state and a `Response`.
-/

namespace KoneWebhook

/-- JSON values, as produced by parsing a request body.  Python dicts
become `obj` (an association list preserving insertion order), numbers
are modelled by `Int` (the payloads are treated as opaque, so the exact
numeric type is irrelevant to every property below). -/
inductive Json : Type where
  | null : Json
  | bool : Bool → Json
  | num : Int → Json
  | str : String → Json
  | arr : List Json → Json
  | obj : List (String × Json) → Json

/-- Field lookup in a JSON object: `Json.getField j k` returns the value
of the first field named `k` when `j` is an object holding one. -/
def Json.getField : Json → String → Option Json
  | .obj fields, k => (fields.find? (fun f => f.1 == k)).map Prod.snd
  | _, _ => none

/-- Whether the parsed `data` is a Python dict (a JSON object): the only case in which
`data.get("type", "Unknown")` at line 69 of `main.py` does not raise
`AttributeError`. -/
def isObj : Json → Bool
  | .obj _ => true
  | _ => false

/-- The module-level dict `latest_webhook_data` (lines 19–23). -/
structure LatestWebhookData where
  last_event : Option Json
  timestamp : Option String
  event_count : Nat

/-- One entry of `event_history` / one line of `webhook_events.log`:
the dict `{timestamp: ..., data: ...}` built at lines 83–86. -/
structure HistEntry where
  timestamp : String
  data : Json

/-- The whole mutable state of the process: the two module-level
structures plus the contents of the append-only `webhook_events.log`
file (a list of appended records). -/
structure ServerState where
  latest_webhook_data : LatestWebhookData
  event_history : List HistEntry
  webhook_events_log : List HistEntry

/-- The capacity bound `MAX_HISTORY = 10` (line 27). -/
def MAX_HISTORY : Nat := 10

/-- The state at process start: both structures empty (lines 19–26),
log file empty. -/
def initialState : ServerState :=
  { latest_webhook_data := { last_event := none, timestamp := none, event_count := 0 }
    event_history := []
    webhook_events_log := [] }

/-- An HTTP response: status code and JSON body (every handler returns
`jsonify(...), code`). -/
structure Response where
  status : Nat
  body : Json

/-- The JSON rendering of a history entry, as `jsonify` serializes the
dict `{timestamp: ..., data: ...}`. -/
def HistEntry.toJson (e : HistEntry) : Json :=
  .obj [("timestamp", .str e.timestamp), ("data", e.data)]

/-- Rendering by `jsonify` of an optional string: `None` renders as JSON null. -/
def jsonOfOptStr : Option String → Json
  | none => .null
  | some s => .str s

/-- The `POST /webhook` handler `kone_webhook` (lines 50–118).

Inputs beyond the state: `body` is the result of `request.json`
(`none` when parsing the request body raises, which the
`except Exception` at line 110 turns into a 500 response);
`timestamp` is the `datetime.now().isoformat()` reading at line 64;
`logWriteOk` says whether the append to `webhook_events.log`
(lines 93–100) succeeds — on failure the exception is swallowed and
only a warning is logged.

When `body` parses but is not a JSON object, `data.get("type", ...)`
at line 69 raises `AttributeError` before any mutation, again reaching
the handler-level `except` and a 500 response.  On the success path the
mutations of lines 78–88 run: overwrite `latest_webhook_data`,
increment `event_count`, append to `event_history` and pop index 0
when the length exceeds `MAX_HISTORY`. -/
def kone_webhook (st : ServerState) (body : Option Json) (timestamp : String)
    (logWriteOk : Bool) : ServerState × Response :=
  match body with
  | none =>
      (st, ⟨500, .obj [("status", .str "error"),
                       ("message", .str "Failed to decode JSON object")]⟩)
  | some data =>
      if isObj data then
        ({ latest_webhook_data :=
             { last_event := some data
               timestamp := some timestamp
               event_count := st.latest_webhook_data.event_count + 1 }
           event_history :=
             if (st.event_history ++ [HistEntry.mk timestamp data]).length > MAX_HISTORY
             then (st.event_history ++ [HistEntry.mk timestamp data]).tail
             else st.event_history ++ [HistEntry.mk timestamp data]
           webhook_events_log :=
             if logWriteOk then st.webhook_events_log ++ [HistEntry.mk timestamp data]
             else st.webhook_events_log },
         ⟨200, .obj [("status", .str "success"),
                     ("message", .str "Webhook received and processed"),
                     ("timestamp", .str timestamp)]⟩)
      else
        (st, ⟨500, .obj [("status", .str "error"),
                         ("message", .str "no get method on non-dict value")]⟩)

/-- The `GET /status` handler `get_status` (lines 121–137). -/
def get_status (st : ServerState) : Response :=
  match st.latest_webhook_data.last_event with
  | none =>
      ⟨200, .obj [("message", .str "No webhooks received yet"),
                  ("event_count", .num st.latest_webhook_data.event_count)]⟩
  | some ev =>
      ⟨200, .obj [("latest_event", ev),
                  ("timestamp", jsonOfOptStr st.latest_webhook_data.timestamp),
                  ("total_events_received", .num st.latest_webhook_data.event_count)]⟩

/-- The `GET /history` handler `get_history` (lines 140–148). -/
def get_history (st : ServerState) : Response :=
  ⟨200, .obj [("total_events", .num st.event_history.length),
              ("events", .arr (st.event_history.map HistEntry.toJson))]⟩

/-- The `GET /health` handler `health_check` (lines 151–161); `now` is
the `datetime.now().isoformat()` reading. -/
def health_check (now : String) : Response :=
  ⟨200, .obj [("status", .str "healthy"),
              ("timestamp", .str now),
              ("uptime_check", .str "OK")]⟩

/-- The `GET /` handler `home` (lines 30–47). -/
def home : Response :=
  ⟨200, .obj [("service", .str "Kone Webhook Receiver"),
              ("status", .str "running"),
              ("endpoints", .obj [
                ("/", .str "GET - API documentation (you are here)"),
                ("/webhook", .str "POST - Receive Kone webhooks"),
                ("/status", .str "GET - Get latest webhook data"),
                ("/history", .str "GET - Get recent webhook history"),
                ("/health", .str "GET - Health check")]),
              ("description", .str "This service receives webhooks from Kone API for lift status monitoring")]⟩

/-- One inbound HTTP request, with the environment inputs each handler
consumes (parsed body / clock reading / log-write outcome). -/
inductive Request : Type where
  | webhook (body : Option Json) (timestamp : String) (logWriteOk : Bool)
  | status
  | history
  | health (now : String)
  | home

/-- Dispatch one request to its handler.  The GET handlers contain no
assignment to the module-level structures in the source, so they return
the state unchanged. -/
def handle (st : ServerState) : Request → ServerState × Response
  | .webhook b t l => kone_webhook st b t l
  | .status => (st, get_status st)
  | .history => (st, get_history st)
  | .health now => (st, health_check now)
  | .home => (st, home)

/-- Run a sequence of requests, returning the final state. -/
def runRequests (st : ServerState) (reqs : List Request) : ServerState :=
  reqs.foldl (fun s r => (handle s r).1) st

/-- Run a sequence of requests, returning the final state and the list
of responses in order. -/
def runTrace (st : ServerState) : List Request → ServerState × List Response
  | [] => (st, [])
  | r :: rs =>
      let step := handle st r
      let rest := runTrace step.1 rs
      (rest.1, step.2 :: rest.2)

/-- The history entry a single request contributes, when it is a
webhook POST that succeeds (body parses to a JSON object). -/
def Request.ingested : Request → List HistEntry
  | .webhook (some d) t _ => if isObj d then [⟨t, d⟩] else []
  | _ => []

/-- All history entries successfully ingested by a request sequence,
in arrival order. -/
def ingestedEntries : List Request → List HistEntry
  | [] => []
  | r :: rs => r.ingested ++ ingestedEntries rs

/-- The state-tracking invariant relating a server state to the full
list `E` of entries ingested so far: the history holds the last
`MAX_HISTORY` of `E` (as the suffix `E.drop (E.length - MAX_HISTORY)`,
so in arrival order), the counter equals `E.length`, and the latest
event / timestamp are those of the last entry (absent when `E = []`). -/
def Tracks (st : ServerState) (E : List HistEntry) : Prop :=
  st.event_history = E.drop (E.length - MAX_HISTORY) ∧
  st.latest_webhook_data.event_count = E.length ∧
  st.latest_webhook_data.last_event = E.getLast?.map HistEntry.data ∧
  st.latest_webhook_data.timestamp = E.getLast?.map HistEntry.timestamp

/-- Appending one element to a 10-bounded suffix and evicting the head
on overflow yields the 10-bounded suffix of the extended list. -/
theorem capped_append {α : Type} (E : List α) (e : α) :
    (if (E.drop (E.length - 10) ++ [e]).length > 10
     then (E.drop (E.length - 10) ++ [e]).tail
     else E.drop (E.length - 10) ++ [e])
    = (E ++ [e]).drop ((E ++ [e]).length - 10) := by
  rcases lt_or_ge E.length 10 with h | h
  · have h0 : E.length - 10 = 0 := by omega
    have hc : ¬ (E.drop (E.length - 10) ++ [e]).length > 10 := by
      simp [h0]; omega
    have h1 : (E ++ [e]).length - 10 = 0 := by simp; omega
    rw [if_neg hc, h0, h1, List.drop_zero, List.drop_zero]
  · have hlen : (E.drop (E.length - 10)).length = 10 := by simp; omega
    have hc : (E.drop (E.length - 10) ++ [e]).length > 10 := by
      simp [hlen]
    have hne : E.drop (E.length - 10) ≠ [] := by
      intro hnil
      rw [hnil] at hlen
      simp at hlen
    rw [if_pos hc, List.tail_append_of_ne_nil hne, List.tail_drop]
    rw [List.drop_append_eq_append_drop]
    have h2 : (E ++ [e]).length - 10 = E.length - 10 + 1 := by simp; omega
    have h3 : E.length - 10 + 1 - E.length = 0 := by omega
    rw [h2, h3]
    simp

/-- Unfolding `kone_webhook` on the success path (body parsed to a JSON
object): all four mutations of lines 78–88 applied, response 200. -/
theorem kone_webhook_success (st : ServerState) (d : Json) (t : String) (l : Bool)
    (hd : isObj d = true) :
    kone_webhook st (some d) t l =
      ({ latest_webhook_data :=
           { last_event := some d
             timestamp := some t
             event_count := st.latest_webhook_data.event_count + 1 }
         event_history :=
           if (st.event_history ++ [HistEntry.mk t d]).length > MAX_HISTORY
           then (st.event_history ++ [HistEntry.mk t d]).tail
           else st.event_history ++ [HistEntry.mk t d]
         webhook_events_log :=
           if l then st.webhook_events_log ++ [HistEntry.mk t d]
           else st.webhook_events_log },
       ⟨200, .obj [("status", .str "success"),
                   ("message", .str "Webhook received and processed"),
                   ("timestamp", .str t)]⟩) := by
  rw [kone_webhook]
  rw [if_pos hd]

/-- Unfolding `kone_webhook` when the body is valid JSON but not an
object: `AttributeError` at line 69, caught at line 110; no mutation. -/
theorem kone_webhook_nonobj (st : ServerState) (d : Json) (t : String) (l : Bool)
    (hd : isObj d = false) :
    kone_webhook st (some d) t l =
      (st, ⟨500, .obj [("status", .str "error"),
                       ("message", .str "no get method on non-dict value")]⟩) := by
  rw [kone_webhook]
  rw [if_neg (by rw [hd]; exact Bool.false_ne_true)]

/-- One step of `handle` preserves the tracking invariant, the ingested
list growing by the step's own contribution. -/
theorem handle_tracks {st : ServerState} {E : List HistEntry} (r : Request)
    (h : Tracks st E) : Tracks (handle st r).1 (E ++ Request.ingested r) := by
  obtain ⟨h1, h2, h3, h4⟩ := h
  cases r with
  | webhook b t l =>
      cases b with
      | none =>
          have he : E ++ Request.ingested (.webhook none t l) = E := by
            simp [Request.ingested]
          rw [he]
          exact ⟨h1, h2, h3, h4⟩
      | some d =>
          by_cases hd : isObj d = true
          · have he : E ++ Request.ingested (.webhook (some d) t l)
                = E ++ [HistEntry.mk t d] := by
              simp [Request.ingested, hd]
            rw [he]
            show Tracks (kone_webhook st (some d) t l).1 (E ++ [HistEntry.mk t d])
            rw [kone_webhook_success st d t l hd]
            refine ⟨?_, ?_, ?_, ?_⟩
            · show (if (st.event_history ++ [HistEntry.mk t d]).length > MAX_HISTORY
                    then (st.event_history ++ [HistEntry.mk t d]).tail
                    else st.event_history ++ [HistEntry.mk t d])
                = (E ++ [HistEntry.mk t d]).drop
                    ((E ++ [HistEntry.mk t d]).length - MAX_HISTORY)
              rw [h1]
              simpa [MAX_HISTORY] using capped_append E (HistEntry.mk t d)
            · show st.latest_webhook_data.event_count + 1
                = (E ++ [HistEntry.mk t d]).length
              rw [h2]
              simp
            · show some d
                = ((E ++ [HistEntry.mk t d]).getLast?).map HistEntry.data
              rw [List.getLast?_concat]
              rfl
            · show some t
                = ((E ++ [HistEntry.mk t d]).getLast?).map HistEntry.timestamp
              rw [List.getLast?_concat]
              rfl
          · have hd' : isObj d = false := by
              cases hob : isObj d
              · rfl
              · exact absurd hob hd
            have he : E ++ Request.ingested (.webhook (some d) t l) = E := by
              simp [Request.ingested, hd']
            rw [he]
            show Tracks (kone_webhook st (some d) t l).1 E
            rw [kone_webhook_nonobj st d t l hd']
            exact ⟨h1, h2, h3, h4⟩
  | status =>
      have he : E ++ Request.ingested .status = E := by simp [Request.ingested]
      rw [he]
      exact ⟨h1, h2, h3, h4⟩
  | history =>
      have he : E ++ Request.ingested .history = E := by simp [Request.ingested]
      rw [he]
      exact ⟨h1, h2, h3, h4⟩
  | health now =>
      have he : E ++ Request.ingested (.health now) = E := by simp [Request.ingested]
      rw [he]
      exact ⟨h1, h2, h3, h4⟩
  | home =>
      have he : E ++ Request.ingested .home = E := by simp [Request.ingested]
      rw [he]
      exact ⟨h1, h2, h3, h4⟩

theorem ingestedEntries_append (l1 l2 : List Request) :
    ingestedEntries (l1 ++ l2) = ingestedEntries l1 ++ ingestedEntries l2 := by
  induction l1 with
  | nil => rfl
  | cons r rs ih => simp [ingestedEntries, ih]

theorem runRequests_append (st : ServerState) (l1 l2 : List Request) :
    runRequests st (l1 ++ l2) = runRequests (runRequests st l1) l2 := by
  simp [runRequests, List.foldl_append]

/-- The tracking invariant holds in every state reachable from the
start state, with `E` the entries the request sequence ingested. -/
theorem runRequests_tracks (reqs : List Request) :
    Tracks (runRequests initialState reqs) (ingestedEntries reqs) := by
  induction reqs using List.reverseRecOn with
  | nil => exact ⟨rfl, rfl, rfl, rfl⟩
  | append_singleton rs r ih =>
      rw [runRequests_append, ingestedEntries_append]
      have he : ingestedEntries [r] = Request.ingested r := by
        simp [ingestedEntries]
      rw [he]
      exact handle_tracks r ih

theorem runTrace_fst (st : ServerState) (reqs : List Request) :
    (runTrace st reqs).1 = runRequests st reqs := by
  induction reqs generalizing st with
  | nil => rfl
  | cons r rs ih =>
      show (runTrace (handle st r).1 rs).1 = runRequests st (r :: rs)
      rw [ih]
      rfl

theorem handle_webhook_status_200 (st : ServerState) (d : Json) (t : String)
    (l : Bool) (hd : isObj d = true) :
    (handle st (.webhook (some d) t l)).2.status = 200 := by
  show (kone_webhook st (some d) t l).2.status = 200
  rw [kone_webhook_success st d t l hd]

/-- A run consisting only of webhook posts whose bodies parse to JSON
objects produces only HTTP 200 responses. -/
theorem runTrace_all_200 (st : ServerState) (reqs : List Request)
    (hs : ∀ r ∈ reqs, ∃ d t l, r = Request.webhook (some d) t l ∧ isObj d = true) :
    ∀ resp ∈ (runTrace st reqs).2, resp.status = 200 := by
  induction reqs generalizing st with
  | nil =>
      intro resp hresp
      simp [runTrace] at hresp
  | cons r rs ih =>
      intro resp hresp
      obtain ⟨d, t, l, hr, hd⟩ := hs r (List.mem_cons_self r rs)
      subst hr
      simp only [runTrace] at hresp
      rcases List.mem_cons.mp hresp with hresp | hresp
      · rw [hresp]
        exact handle_webhook_status_200 st d t l hd
      · exact ih _ (fun q hq => hs q (List.mem_cons_of_mem _ hq)) resp hresp

/-- Unfolding `get_status` when an event has been received (the branch
at lines 133–137). -/
theorem get_status_some (st : ServerState) (ev : Json)
    (h : st.latest_webhook_data.last_event = some ev) :
    get_status st
      = ⟨200, .obj [("latest_event", ev),
                    ("timestamp", jsonOfOptStr st.latest_webhook_data.timestamp),
                    ("total_events_received",
                      .num st.latest_webhook_data.event_count)]⟩ := by
  unfold get_status
  rw [h]

/-- A run of all-successful webhook posts ingests exactly one entry per
request. -/
theorem ingestedEntries_length_of_success (reqs : List Request)
    (hs : ∀ r ∈ reqs, ∃ d t l, r = Request.webhook (some d) t l ∧ isObj d = true) :
    (ingestedEntries reqs).length = reqs.length := by
  induction reqs with
  | nil => rfl
  | cons r rs ih =>
      obtain ⟨d, t, l, hr, hd⟩ := hs r (List.mem_cons_self r rs)
      subst hr
      have ihe := ih (fun q hq => hs q (List.mem_cons_of_mem _ hq))
      simp [ingestedEntries, Request.ingested, hd, ihe]

/-- Posting a list of history entries (timestamp plus object payload)
ingests exactly that list. -/
theorem ingestedEntries_of_entries (ps : List HistEntry)
    (hobj : ∀ e ∈ ps, isObj e.data = true) :
    ingestedEntries
        (ps.map (fun e => Request.webhook (some e.data) e.timestamp true))
      = ps := by
  induction ps with
  | nil => rfl
  | cons e es ih =>
      have hd := hobj e (List.mem_cons_self e es)
      have ihe := ih (fun q hq => hobj q (List.mem_cons_of_mem _ hq))
      show Request.ingested (.webhook (some e.data) e.timestamp true)
          ++ ingestedEntries
              (es.map (fun q => Request.webhook (some q.data) q.timestamp true))
        = e :: es
      rw [ihe]
      show (if isObj e.data then [HistEntry.mk e.timestamp e.data] else []) ++ es
        = e :: es
      rw [if_pos hd]
      rfl

/-- C3: a `POST /webhook` whose body fails to parse as JSON yields
HTTP 500 with a `status: "error"` field, and neither the state nor in
particular `event_count` changes. -/
theorem claim_C3_malformed_body (st : ServerState) (t : String) (l : Bool) :
    (kone_webhook st none t l).2.status = 500 ∧
    (kone_webhook st none t l).2.body.getField "status" = some (.str "error") ∧
    (kone_webhook st none t l).1 = st ∧
    (kone_webhook st none t l).1.latest_webhook_data.event_count
      = st.latest_webhook_data.event_count :=
  ⟨rfl, rfl, rfl, rfl⟩

/-- C6: before any webhook, `GET /status` answers 200 with
`{message: "No webhooks received yet", event_count: 0}` and
`GET /history` answers 200 with `{total_events: 0, events: []}`. -/
theorem claim_C6_empty_state :
    get_status initialState
      = ⟨200, .obj [("message", .str "No webhooks received yet"),
                    ("event_count", .num 0)]⟩ ∧
    get_history initialState
      = ⟨200, .obj [("total_events", .num 0), ("events", .arr [])]⟩ :=
  ⟨rfl, rfl⟩

/-- C7: the four GET endpoints never modify the state, and `/health`
answers 200 with `status: "healthy"` in every state. -/
theorem claim_C7_reads_pure (st : ServerState) (now : String) :
    (handle st .status).1 = st ∧
    (handle st .history).1 = st ∧
    (handle st (.health now)).1 = st ∧
    (handle st .home).1 = st ∧
    (handle st (.health now)).2.status = 200 ∧
    (handle st (.health now)).2.body.getField "status" = some (.str "healthy") :=
  ⟨rfl, rfl, rfl, rfl, rfl, rfl⟩

/-- C9: a body that is valid JSON but not an object (array, string,
number, boolean or null) yields HTTP 500 and leaves the state
unchanged: `.get` on a non-mapping raises before any mutation. -/
theorem claim_C9_nonobject_body (st : ServerState) (d : Json) (t : String)
    (l : Bool) (hd : isObj d = false) :
    (kone_webhook st (some d) t l).2.status = 500 ∧
    (kone_webhook st (some d) t l).2.body.getField "status" = some (.str "error") ∧
    (kone_webhook st (some d) t l).1 = st := by
  rw [kone_webhook_nonobj st d t l hd]
  exact ⟨rfl, rfl, rfl⟩

theorem claim_C9_witness :
    (kone_webhook initialState (some (Json.arr [])) "2024-01-01T00:00:00" true).2.status = 500 ∧
    (kone_webhook initialState (some (Json.arr [])) "2024-01-01T00:00:00" true).2.body.getField "status"
      = some (.str "error") ∧
    (kone_webhook initialState (some (Json.arr [])) "2024-01-01T00:00:00" true).1 = initialState :=
  claim_C9_nonobject_body initialState (Json.arr []) "2024-01-01T00:00:00" true rfl

/-- C8: whenever `POST /webhook` answers 500, the state is exactly as
before the request: every exception reaching the handler-level catch is
raised before any in-memory mutation. -/
theorem claim_C8_500_means_no_mutation (st : ServerState) (r : Request)
    (h : (handle st r).2.status = 500) : (handle st r).1 = st := by
  cases r with
  | webhook b t l =>
      cases b with
      | none => rfl
      | some d =>
          cases hd : isObj d with
          | true =>
              exfalso
              have h200 := handle_webhook_status_200 st d t l hd
              rw [h200] at h
              omega
          | false =>
              show (kone_webhook st (some d) t l).1 = st
              rw [kone_webhook_nonobj st d t l hd]
  | status => rfl
  | history => rfl
  | health now => rfl
  | home => rfl

theorem claim_C8_witness :
    (handle initialState (.webhook none "2024-01-01T00:00:00" true)).2.status = 500 ∧
    (handle initialState (.webhook none "2024-01-01T00:00:00" true)).1 = initialState :=
  ⟨rfl, claim_C8_500_means_no_mutation initialState
    (.webhook none "2024-01-01T00:00:00" true) rfl⟩

/-- C5: when steps 1–4 succeed but the append to `webhook_events.log`
fails, the response is still 200 with `status: "success"`, and the
Latest State and History Queue updates are the same as when the write
succeeds (in particular the new latest event and incremented counter
remain applied). -/
theorem claim_C5_log_failure_best_effort (st : ServerState) (d : Json)
    (t : String) (hd : isObj d = true) :
    (kone_webhook st (some d) t false).2 = (kone_webhook st (some d) t true).2 ∧
    (kone_webhook st (some d) t false).2.status = 200 ∧
    (kone_webhook st (some d) t false).2.body.getField "status"
      = some (.str "success") ∧
    (kone_webhook st (some d) t false).1.latest_webhook_data
      = (kone_webhook st (some d) t true).1.latest_webhook_data ∧
    (kone_webhook st (some d) t false).1.event_history
      = (kone_webhook st (some d) t true).1.event_history ∧
    (kone_webhook st (some d) t false).1.latest_webhook_data.last_event = some d ∧
    (kone_webhook st (some d) t false).1.latest_webhook_data.event_count
      = st.latest_webhook_data.event_count + 1 := by
  rw [kone_webhook_success st d t false hd, kone_webhook_success st d t true hd]
  exact ⟨rfl, rfl, rfl, rfl, rfl, rfl, rfl⟩

theorem claim_C5_witness :
    (kone_webhook initialState (some (Json.obj [("type", Json.str "LiftMoving")]))
      "2024-01-01T00:00:00" false).2.status = 200 :=
  (claim_C5_log_failure_best_effort initialState
    (Json.obj [("type", Json.str "LiftMoving")]) "2024-01-01T00:00:00" rfl).2.1

/-- C4: after successful posts of payloads `A` then `B` (with the local
clock non-decreasing across the two calls, `tA ≤ tB`), `GET /status`
returns `latest_event` equal to `B` — and not `A` when the payloads
differ — and its `timestamp` is the one recorded for `B`, which is at
least the one recorded for `A`. -/
theorem claim_C4_latest_reflects_last (st : ServerState) (A B : Json)
    (tA tB : String) (hA : isObj A = true) (hB : isObj B = true)
    (hclock : tA ≤ tB) :
    (get_status (kone_webhook (kone_webhook st (some A) tA true).1
        (some B) tB true).1).body.getField "latest_event" = some B ∧
    (A ≠ B →
      (get_status (kone_webhook (kone_webhook st (some A) tA true).1
          (some B) tB true).1).body.getField "latest_event" ≠ some A) ∧
    (get_status (kone_webhook (kone_webhook st (some A) tA true).1
        (some B) tB true).1).body.getField "timestamp" = some (.str tB) ∧
    tA ≤ tB := by
  have hk := kone_webhook_success (kone_webhook st (some A) tA true).1 B tB true hB
  rw [hk]
  refine ⟨rfl, ?_, rfl, hclock⟩
  intro hne hcontra
  have hBA : some B = some A := hcontra
  exact hne (Option.some.inj hBA).symm

theorem claim_C4_witness :
    (get_status (kone_webhook (kone_webhook initialState
        (some (Json.obj [("equipmentId", Json.str "EQ1")])) "2024-01-01T00:00:00" true).1
        (some (Json.obj [("equipmentId", Json.str "EQ2")])) "2024-01-01T00:00:00" true).1).body.getField "latest_event"
      = some (Json.obj [("equipmentId", Json.str "EQ2")]) :=
  (claim_C4_latest_reflects_last initialState
    (Json.obj [("equipmentId", Json.str "EQ1")])
    (Json.obj [("equipmentId", Json.str "EQ2")])
    "2024-01-01T00:00:00" "2024-01-01T00:00:00" rfl rfl
    (le_refl "2024-01-01T00:00:00")).1

/-- C2: after any number `N` of successful sequential webhook posts
from a fresh start, every response along the run is HTTP 200, and
`GET /status` reports the count `N` — under `total_events_received`
once `N > 0`, under `event_count` when no event is stored. -/
theorem claim_C2_counter_equals_N (reqs : List Request)
    (hs : ∀ r ∈ reqs, ∃ d t l, r = Request.webhook (some d) t l ∧ isObj d = true) :
    (∀ resp ∈ (runTrace initialState reqs).2, resp.status = 200) ∧
    (get_status (runRequests initialState reqs)).body.getField
        (if reqs.length = 0 then "event_count" else "total_events_received")
      = some (.num reqs.length) := by
  refine ⟨runTrace_all_200 initialState reqs hs, ?_⟩
  obtain ⟨h1, h2, h3, h4⟩ := runRequests_tracks reqs
  have hcount := ingestedEntries_length_of_success reqs hs
  cases reqs with
  | nil => rfl
  | cons r rs =>
      have hne : ingestedEntries (r :: rs) ≠ [] := by
        intro h0
        rw [h0] at hcount
        simp at hcount
      have hsome : (ingestedEntries (r :: rs)).getLast?.isSome := by
        rw [List.getLast?_isSome]
        exact hne
      obtain ⟨e, he⟩ := Option.isSome_iff_exists.mp hsome
      rw [get_status_some _ e.data (by rw [h3, he]; rfl)]
      rw [if_neg (by simp)]
      rw [h2, hcount]
      rfl

/-- Two successful webhook posts, used to instantiate C2. -/
def sampleReqs2 : List Request :=
  [.webhook (some (Json.obj [])) "2024-01-01T00:00:00" true,
   .webhook (some (Json.obj [("a", Json.num 2)])) "2024-01-01T00:00:01" true]

theorem claim_C2_witness :
    (get_status (runRequests initialState sampleReqs2)).body.getField
        (if sampleReqs2.length = 0 then "event_count" else "total_events_received")
      = some (.num 2) :=
  (claim_C2_counter_equals_N sampleReqs2 (by
    intro r hr
    simp only [sampleReqs2, List.mem_cons, List.mem_singleton] at hr
    rcases hr with rfl | rfl | h
    · exact ⟨_, _, _, rfl, rfl⟩
    · exact ⟨_, _, _, rfl, rfl⟩
    · exact absurd h (List.not_mem_nil r))).2

/-- C10: in every state reachable from the initial state, the History
Queue's length is `min event_count MAX_HISTORY`, the counter equals the
number of successfully ingested events, and the queue is exactly the
suffix of the most recent `min event_count MAX_HISTORY` ingested
entries, in arrival order. -/
theorem claim_C10_reachable_invariant (reqs : List Request) :
    (runRequests initialState reqs).event_history.length
      = min (runRequests initialState reqs).latest_webhook_data.event_count
          MAX_HISTORY ∧
    (runRequests initialState reqs).latest_webhook_data.event_count
      = (ingestedEntries reqs).length ∧
    (runRequests initialState reqs).event_history
      = (ingestedEntries reqs).drop
          ((ingestedEntries reqs).length - MAX_HISTORY) := by
  obtain ⟨h1, h2, -, -⟩ := runRequests_tracks reqs
  refine ⟨?_, h2, h1⟩
  rw [h1, h2, List.length_drop]
  simp only [MAX_HISTORY]
  omega

/-- C1: posting 15 distinct object payloads sequentially from the empty
state keeps the History Queue at length at most 10 after every prefix
of the run, and `GET /history` then returns exactly 10 events: the 6th
through 15th payloads in arrival order (oldest first). -/
theorem claim_C1_bounded_history15 (ps : List HistEntry)
    (hlen : ps.length = 15)
    (hobj : ∀ e ∈ ps, isObj e.data = true)
    (hdistinct : (ps.map HistEntry.data).Nodup) :
    (∀ k : Nat,
      (runRequests initialState
        ((ps.map (fun e => Request.webhook (some e.data) e.timestamp true)).take k)).event_history.length
        ≤ 10) ∧
    get_history (runRequests initialState
        (ps.map (fun e => Request.webhook (some e.data) e.timestamp true)))
      = ⟨200, .obj [("total_events", .num 10),
                    ("events", .arr ((ps.drop 5).map HistEntry.toJson))]⟩ := by
  constructor
  · intro k
    obtain ⟨h1, -, -, -⟩ := runRequests_tracks
      ((ps.map (fun e => Request.webhook (some e.data) e.timestamp true)).take k)
    rw [h1, List.length_drop]
    simp only [MAX_HISTORY]
    omega
  · obtain ⟨h1, -, -, -⟩ := runRequests_tracks
      (ps.map (fun e => Request.webhook (some e.data) e.timestamp true))
    rw [ingestedEntries_of_entries ps hobj] at h1
    rw [hlen] at h1
    have hdrop : ps.drop (15 - MAX_HISTORY) = ps.drop 5 := by
      norm_num [MAX_HISTORY]
    rw [hdrop] at h1
    have hlen10 : (ps.drop 5).length = 10 := by
      rw [List.length_drop, hlen]
    show Response.mk 200 (.obj
        [("total_events", .num ((runRequests initialState
            (ps.map (fun e => Request.webhook (some e.data) e.timestamp true))).event_history.length : Int)),
         ("events", .arr ((runRequests initialState
            (ps.map (fun e => Request.webhook (some e.data) e.timestamp true))).event_history.map HistEntry.toJson))])
      = Response.mk 200 (.obj [("total_events", .num 10),
          ("events", .arr ((ps.drop 5).map HistEntry.toJson))])
    rw [h1, hlen10]
    rfl

/-- Fifteen distinct object payloads, used to instantiate C1. -/
def samplePayloads15 : List HistEntry :=
  [⟨"t01", .obj [("n", .str "e01")]⟩,
   ⟨"t02", .obj [("n", .str "e02")]⟩,
   ⟨"t03", .obj [("n", .str "e03")]⟩,
   ⟨"t04", .obj [("n", .str "e04")]⟩,
   ⟨"t05", .obj [("n", .str "e05")]⟩,
   ⟨"t06", .obj [("n", .str "e06")]⟩,
   ⟨"t07", .obj [("n", .str "e07")]⟩,
   ⟨"t08", .obj [("n", .str "e08")]⟩,
   ⟨"t09", .obj [("n", .str "e09")]⟩,
   ⟨"t10", .obj [("n", .str "e10")]⟩,
   ⟨"t11", .obj [("n", .str "e11")]⟩,
   ⟨"t12", .obj [("n", .str "e12")]⟩,
   ⟨"t13", .obj [("n", .str "e13")]⟩,
   ⟨"t14", .obj [("n", .str "e14")]⟩,
   ⟨"t15", .obj [("n", .str "e15")]⟩]

theorem claim_C1_witness :
    (runRequests initialState
      ((samplePayloads15.map
        (fun e => Request.webhook (some e.data) e.timestamp true)).take 7)).event_history.length
      ≤ 10 :=
  (claim_C1_bounded_history15 samplePayloads15 rfl (by decide)
    (by simp [samplePayloads15])).1 7

end KoneWebhook
